import Mathlib

/-!
Verification of the Optimus Cache Prime (ocp) cache-warming crawler.

This file is a shallow embedding of the program's core in Lean 4.  The
authoritative source is the latest revision of the program (version 2.7,
`ocp.go`); where an older revision (version 2.5) differs in a way relevant
to a property, a second definition carrying the `V25` suffix embeds that
older revision.

External collaborators (the HTTP transport, the filesystem, the gzip
decompressor, wall-clock time) are modelled as oracles supplied in an
environment record: the embedding maps each location string to the outcome
the collaborator would produce for it.  Go's `float64` priorities are
modelled as rationals (the program only ever compares them and scales them
by 100, so exact rationals are faithful for every property considered
here).  Go's `(value, error)` returns are modelled as products with
`Option` errors, and a Go runtime panic (nil-pointer dereference) is
modelled explicitly by the `GoResult.crash` constructor.
-/

namespace Ocp

/-- Model of Go `strings.HasPrefix`, kernel-computable. -/
def hasHttpOrHttps (s : String) : Bool :=
  ("http://".toList).isPrefixOf s.toList || ("https://".toList).isPrefixOf s.toList

/-- One `<sitemap>` record of a sitemap index (source: `type Sitemap`,
with its `Loc` field). -/
structure Sitemap where
  loc : String
deriving Repr, DecidableEq

/-- One `<url>` record of a leaf sitemap (source: `type Url`, with its
`Loc` and `Priority` fields; `float64` priority modelled as `ℚ`). -/
structure Url where
  loc : String
  priority : ℚ
deriving Repr, DecidableEq

/-- Decoded sitemap document (source: `type Urlset`, holding both the
`Sitemap` children of an index document and the `Url` entries of a leaf
document). -/
structure Urlset where
  sitemap : List Sitemap
  url : List Url
deriving Repr, DecidableEq

/-- Source comparator `Urlset.Less`: entry `a` sorts strictly before
entry `b` when `a.Priority > b.Priority`. -/
def urlsetLess (a b : Url) : Prop := b.priority < a.priority

instance : DecidableRel urlsetLess := fun a b => by
  unfold urlsetLess; infer_instance

/-- Relation actually guaranteed by Go's `sort.Sort` for the final order:
position `i ≤ j` implies `¬ Less(uᵤ[j], uᵤ[i])`, i.e. the later entry's
priority is at most the earlier entry's. -/
def sortRel (a b : Url) : Prop := ¬ urlsetLess b a

instance : DecidableRel sortRel := fun a b => by
  unfold sortRel; infer_instance

instance : IsTotal Url sortRel where
  total a b := by
    unfold sortRel urlsetLess
    rcases le_total a.priority b.priority with h | h
    · exact Or.inr (not_lt.mpr h)
    · exact Or.inl (not_lt.mpr h)

instance : IsTrans Url sortRel where
  trans a b c hab hbc := by
    unfold sortRel urlsetLess at *
    exact not_lt.mpr (le_trans (not_lt.mp hbc) (not_lt.mp hab))

/-- Model of the `sort.Sort(urlset)` call: the Go standard sorter is an
external collaborator whose contract is to produce a permutation of the
input ordered by the program's `Urlset.Less` comparator; an executable
insertion sort over exactly that comparator stands in for it. -/
def sortUrls (l : List Url) : List Url := List.insertionSort sortRel l

/-- Source `urlSlice` (version 2.7): each command-line argument becomes one
`Url`; `http://` is prepended unless the argument already carries an
`http://` or `https://` prefix, and the priority field is left at its zero
value. -/
def urlSlice (args : List String) : List Url :=
  args.map fun v =>
    { loc := if !hasHttpOrHttps v then "http://" ++ v else v
      priority := 0 }

/-- Run configuration: the process-wide flag globals (`throttle`, `max`,
`localDir`, `localSuffix`, `userAgent`, `verbose`, `audit`, `nowarn`) as
they stand when priming runs.  `maxUncached` is the `-max` flag and
`throttle` the `-c` flag. -/
structure Config where
  throttle : Nat
  maxUncached : Nat
  localDir : String
  localSuffix : String
  userAgent : String
  verbose : Bool
  audit : Bool
  nowarn : Bool
deriving Repr, DecidableEq

/-- Outcome of one `get(url)` call through the HTTP client collaborator:
either a transport error (`client.Do` returned a non-nil error) or a
response carrying Go's integer `StatusCode` and string `Status`. -/
inductive HttpOutcome where
  | transportErr (msg : String)
  | response (statusCode : Nat) (status : String)
deriving Repr, DecidableEq

/-- Oracles for the collaborators a priming task consults: `url.Parse`
(returning the parsed URL's path component on success), `os.Lstat`
(whether the stat succeeded, i.e. the artifact exists — any stat error is
indistinguishable from absence in the source), the HTTP client, and the
wall clock (elapsed milliseconds `time.Since` would report for a fetch of
the given URL). -/
structure PrimeEnv where
  parsePath : String → Option String
  statExists : String → Bool
  http : String → HttpOutcome
  elapsedMs : String → ℚ

/-- Model of the `path.Join(localDir, parsed.Path, localSuffix)` call.
Go's `path.Join` additionally cleans the result; cleaning is immaterial
here because the filesystem oracle is keyed on the joined string. -/
def pathJoin (dir p suffix : String) : String :=
  dir ++ "/" ++ p ++ "/" ++ suffix

/-- The `found` computation at the top of `primeUrl` (version 2.7): with a
local cache directory configured, parse the URL and `Lstat` the joined
artifact path; any parse or stat failure leaves `found` false. -/
def cacheHit (env : PrimeEnv) (cfg : Config) (u : Url) : Bool :=
  cfg.localDir ≠ "" &&
    match env.parsePath u.loc with
    | some p => env.statExists (pathJoin cfg.localDir p cfg.localSuffix)
    | none => false

/-- One line of audit-mode output: `res.StatusCode`, the elapsed time in
milliseconds, and the URL, tab-separated in the source's
`fmt.Printf("%d\t%4.2f\t%s\n", ...)`. -/
structure AuditLine where
  statusCode : Nat
  elapsedMs : ℚ
  loc : String
deriving Repr, DecidableEq

/-- Observable effects of one `primeUrl` task: how many HTTP GETs it
issued, how many signals it sent on the `one` channel (the uncached
counter), the audit lines it printed, and the warning log lines it
emitted.  The Go function's `error` return value is discarded by its only
caller (`go primeUrl(u)`), so it is not part of the observable effect. -/
structure PrimeEffect where
  requests : Nat
  signals : Nat
  auditLines : List AuditLine
  warnings : Nat
deriving Repr, DecidableEq

/-- Embedding of `primeUrl` (version 2.7, the priming task body): a local
cache hit short-circuits everything; otherwise exactly one GET is issued,
a warning is logged on transport error or non-`200 OK` status (unless
suppressed), an audit line is printed only when a response was obtained,
and with `max > 0` exactly one signal is sent on the uncached counter
regardless of the fetch outcome. -/
def primeUrl (env : PrimeEnv) (cfg : Config) (u : Url) : PrimeEffect :=
  if cacheHit env cfg u then
    { requests := 0, signals := 0, auditLines := [], warnings := 0 }
  else
    let signal := if 0 < cfg.maxUncached then 1 else 0
    match env.http u.loc with
    | .transportErr _ =>
        { requests := 1, signals := signal, auditLines := [],
          warnings := if cfg.nowarn then 0 else 1 }
    | .response code status =>
        { requests := 1, signals := signal,
          auditLines :=
            if cfg.audit then
              [{ statusCode := code, elapsedMs := env.elapsedMs u.loc, loc := u.loc }]
            else [],
          warnings := if status ≠ "200 OK" && !cfg.nowarn then 1 else 0 }

/-- Pointwise accumulation of task effects. -/
def PrimeEffect.add (a b : PrimeEffect) : PrimeEffect :=
  { requests := a.requests + b.requests
    signals := a.signals + b.signals
    auditLines := a.auditLines ++ b.auditLines
    warnings := a.warnings + b.warnings }

/-- Embedding of `primeUrlset`: dispatch one `primeUrl` task per entry and
wait for all of them; the aggregate observable effect is the sum of the
tasks' effects (signal counts and request counts are order-independent,
so sequential accumulation is faithful for them). -/
def primeUrlset (env : PrimeEnv) (cfg : Config) (urls : List Url) : PrimeEffect :=
  urls.foldl (fun acc u => acc.add (primeUrl env cfg u))
    { requests := 0, signals := 0, auditLines := [], warnings := 0 }

/-- Embedding of the `maxStopper` goroutine: receive signals from the
`one` channel one at a time (the unbuffered channel serializes them
whatever the concurrency ceiling), incrementing `count`; when `count`
reaches `max`, call `os.Exit(0)`.  Given the total number of signals the
run will produce, the result is `some c` when the goroutine exits the
process (successfully, status 0) after consuming `c` signals, and `none`
when it blocks forever without exiting. -/
def maxStopperRun (maxUncached : Nat) : Nat → Nat → Option Nat
  | 0, _ => none
  | n + 1, count =>
      if count + 1 = maxUncached then some (count + 1)
      else maxStopperRun maxUncached n (count + 1)

/-- The audit-mode flag adjustment in `main` (version 2.7): enabling audit
forces `verbose` off and `nowarn` on before priming starts. -/
def applyAudit (cfg : Config) : Config :=
  if cfg.audit then { cfg with verbose := false, nowarn := true } else cfg

/-- Result of running a piece of Go code that can panic: either a normal
value or a runtime crash (here always the nil-pointer dereference). -/
inductive GoResult (α : Type) where
  | ok (a : α)
  | crash (msg : String)
deriving Repr, DecidableEq

/-- The Go runtime's message for dereferencing a nil pointer. -/
def nilDeref : String :=
  "runtime error: invalid memory address or nil pointer dereference"

/-- Combined outcome of fetching one sitemap location and decoding it, as
`getUrlsFromSitemap` observes it (version 2.7):
`fetchErr` covers every path on which the function returns `(nil, err)`
before decoding (HTTP transport error, non-`200 OK` status, `os.Open`
failure, gzip failure); `decodeErr` is an XML decode error, on which the
function returns the partially decoded `&urlset` together with the error;
`ok` is a successful decode. -/
inductive FetchOutcome where
  | fetchErr (msg : String)
  | decodeErr (part : Urlset) (msg : String)
  | ok (u : Urlset)
deriving Repr, DecidableEq

/-- Oracle mapping each sitemap location to what fetching and decoding it
would produce. -/
structure SitemapEnv where
  fetchDecode : String → FetchOutcome

/-- Embedding of `getUrlsFromSitemap(path, false)` (version 2.7): with
`follow` false the sitemap-index branch is dead code, so the result is the
`(*Urlset, error)` pair produced by fetch and decode alone. -/
def getUrlsNoFollow (env : SitemapEnv) (path : String) :
    Option Urlset × Option String :=
  match env.fetchDecode path with
  | .fetchErr e => (none, some e)
  | .decodeErr u e => (some u, some e)
  | .ok u => (some u, none)

/-- The value one child-resolution goroutine sends on the merge channel
(version 2.7, `getUrlsFromSitemap` index branch): `nil` when the child's
resolution returned a non-nil error, the child's `*Urlset` otherwise. -/
def childSend (env : SitemapEnv) (loc : String) : Option Urlset :=
  match getUrlsNoFollow env loc with
  | (_, some _) => none
  | (u, none) => u

/-- The merge loop of version 2.7: `urlset.Url = append(urlset.Url,
childUrlset.Url...)` with no nil check, so receiving `nil` for a failed
child dereferences a nil pointer and crashes the process. -/
def mergeChildren : List Url → List (Option Urlset) → GoResult (List Url)
  | acc, [] => .ok acc
  | _, none :: _ => .crash nilDeref
  | acc, some cu :: rest => mergeChildren (acc ++ cu.url) rest

/-- The merge loop of version 2.5, which guards the append with
`if childUrlset != nil`: a failed child is skipped and contributes no
URLs. -/
def mergeChildrenV25 : List Url → List (Option Urlset) → List Url
  | acc, [] => acc
  | acc, none :: rest => mergeChildrenV25 acc rest
  | acc, some cu :: rest => mergeChildrenV25 (acc ++ cu.url) rest

/-- Embedding of `getUrlsFromSitemap(path, follow)` (version 2.7).  After
a successful decode, when `follow` is set and the document lists child
sitemaps, every child is resolved with `follow` forced false and the
children's URL collections are appended to the parent's.  Children
complete in nondeterministic order; the merge is modelled in declaration
order, which is immaterial to the properties below (a crash occurs exactly
when some child failed, and the multiset of merged URLs is
order-independent). -/
def getUrlsFromSitemap (env : SitemapEnv) (path : String) (follow : Bool) :
    GoResult (Option Urlset × Option String) :=
  match env.fetchDecode path with
  | .fetchErr e => .ok (none, some e)
  | .decodeErr u e => .ok (some u, some e)
  | .ok u =>
      if follow && !u.sitemap.isEmpty then
        match mergeChildren u.url (u.sitemap.map fun s => childSend env s.loc) with
        | .crash m => .crash m
        | .ok urls => .ok (some { u with url := urls }, none)
      else .ok (some u, none)

/-- Version 2.5 `GetUrlsFromSitemap`, which differs in the merge loop's
nil guard: a failed child is skipped, so the function never crashes and
still returns the surviving children's URLs. -/
def getUrlsFromSitemapV25 (env : SitemapEnv) (path : String) (follow : Bool) :
    Option Urlset × Option String :=
  match env.fetchDecode path with
  | .fetchErr e => (none, some e)
  | .decodeErr u e => (some u, some e)
  | .ok u =>
      if follow && !u.sitemap.isEmpty then
        (some { u with
                url := mergeChildrenV25 u.url
                  (u.sitemap.map fun s => childSend env s.loc) },
         none)
      else (some u, none)

/-- What `main` (version 2.7) does after flag handling, observably:
either the process crashes, or the root error is printed and the run ends
with no priming, or priming proceeds on a final URL list. -/
inductive MainOutcome where
  | crash (msg : String)
  | errorPrinted (msg : String)
  | proceed (urls : List Url)
deriving Repr, DecidableEq

/-- Embedding of `main`'s sitemap branch (version 2.7, lines 298–321):
`urlset, err = getUrlsFromSitemap(path, true)` followed unconditionally by
`sort.Sort(urlset)` — which dereferences `urlset` inside `Len` and crashes
when `urlset` is nil — and only then the `err != nil` check that prints
the error; priming (or printing) proceeds only on the error-free path. -/
def runMainSitemap (env : SitemapEnv) (root : String) : MainOutcome :=
  match getUrlsFromSitemap env root true with
  | .crash m => .crash m
  | .ok (us, err) =>
      match us with
      | none => .crash nilDeref
      | some u =>
          let sorted := sortUrls u.url
          match err with
          | some e => .errorPrinted e
          | none => .proceed sorted

/-- Embedding of `main`'s urlset construction (version 2.7, lines
294–302): with `--urls` set, the urlset is built directly from the
command-line arguments by `urlSlice` — no sitemap fetch and no
`sort.Sort` call happen on this branch; otherwise the first argument is
resolved as a sitemap root and sorted. -/
def runMain (env : SitemapEnv) (primeUrls : Bool) (args : List String) : MainOutcome :=
  if primeUrls then .proceed (urlSlice args)
  else runMainSitemap env (args.headD "")

/-- Decimal digit test, as `strconv` classifies mantissa characters. -/
def isDigitChar (c : Char) : Bool := '0' ≤ c && c ≤ '9'

/-- Value of a digit string read in base 10. -/
def digitsVal (l : List Char) : Nat :=
  l.foldl (fun a c => a * 10 + (c.toNat - 48)) 0

/-- Parse the optional exponent suffix of a Go float literal; the whole
remainder must be consumed. -/
def parseExpSuffix : List Char → Option Int
  | [] => some 0
  | c :: rest =>
      if c = 'e' ∨ c = 'E' then
        match rest with
        | '+' :: ds =>
            if ds ≠ [] ∧ ds.all isDigitChar then some (digitsVal ds) else none
        | '-' :: ds =>
            if ds ≠ [] ∧ ds.all isDigitChar then some (-(digitsVal ds : Int)) else none
        | ds =>
            if ds ≠ [] ∧ ds.all isDigitChar then some (digitsVal ds) else none
      else none

/-- Parse the mantissa of a Go float literal: integer digits, optionally a
dot and fraction digits, with at least one digit overall.  Returns the
mantissa read as an integer, the number of fraction digits, and the
unconsumed remainder. -/
def parseMantissa (cs : List Char) : Option (Nat × Nat × List Char) :=
  let ip := cs.takeWhile isDigitChar
  let rest := cs.dropWhile isDigitChar
  match rest with
  | '.' :: rest2 =>
      let fp := rest2.takeWhile isDigitChar
      let rest3 := rest2.dropWhile isDigitChar
      if ip = [] ∧ fp = [] then none
      else some (digitsVal (ip ++ fp), fp.length, rest3)
  | _ => if ip = [] then none else some (digitsVal ip, 0, rest)

/-- Exact rational value of a parsed float: sign, mantissa, fraction
length and exponent. -/
def ratOfParts (neg : Bool) (m fracLen : Nat) (e : Int) : ℚ :=
  let sm : Int := if neg then -(m : Int) else (m : Int)
  if 0 ≤ e then mkRat (sm * 10 ^ e.toNat) (10 ^ fracLen)
  else mkRat sm (10 ^ fracLen * 10 ^ (-e).toNat)

/-- Unsigned part of `goParseFloat`: mantissa then exponent suffix. -/
def goParseFloatCore (neg : Bool) (cs : List Char) : Option ℚ :=
  match parseMantissa cs with
  | none => none
  | some (m, fl, rest) =>
      match parseExpSuffix rest with
      | none => none
      | some e => some (ratOfParts neg m fl e)

/-- Model of `strconv.ParseFloat` as `encoding/xml` applies it to a
`float64` field: a decimal literal (optional sign, digits with optional
fraction, optional exponent) parses to its exact rational value; anything
else fails.  The special forms Go additionally accepts (`Inf`, `NaN`, hex
floats) have no finite rational value and are outside this model. -/
def goParseFloat (s : String) : Option ℚ :=
  match s.toList with
  | '+' :: rest => goParseFloatCore false rest
  | '-' :: rest => goParseFloatCore true rest
  | cs => goParseFloatCore false cs

/-- One `<url>` element as the XML decoder sees it: the `<loc>` character
data, and the `<priority>` character data when that element is present. -/
structure RawUrl where
  loc : String
  priority : Option String
deriving Repr, DecidableEq

/-- One sitemap document as the XML decoder sees it: the `<sitemap>`
children's `<loc>` values and the `<url>` elements. -/
structure RawDoc where
  sitemapLocs : List String
  urls : List RawUrl
deriving Repr, DecidableEq

/-- The error `strconv.ParseFloat` reports for an unparsable literal,
which `encoding/xml` surfaces as the `Decode` error. -/
def parseFloatErr (s : String) : String :=
  "strconv.ParseFloat: parsing \"" ++ s ++ "\": invalid syntax"

/-- Decoding of one priority field: an absent `<priority>` element leaves
the `float64` field at its zero value; present character data must parse
as a float or the whole decode fails. -/
def decodePriority (p : Option String) : Except String ℚ :=
  match p with
  | none => .ok 0
  | some s =>
      match goParseFloat s with
      | some q => .ok q
      | none => .error (parseFloatErr s)

/-- Decoding of the `<url>` element list, aborting at the first field
error exactly as `encoding/xml` does. -/
def decodeUrls : List RawUrl → Except String (List Url)
  | [] => .ok []
  | r :: rest =>
      match decodePriority r.priority with
      | .error e => .error e
      | .ok q =>
          match decodeUrls rest with
          | .error e => .error e
          | .ok us => .ok ({ loc := r.loc, priority := q } :: us)

/-- Model of `xml.NewDecoder(f).Decode(&urlset)` over the `Urlset` schema
declared in the source (`loc` string fields, `priority` float64 field):
the struct-tag mapping sends each `<sitemap><loc>` to a `Sitemap` record
and each `<url>` to a `Url` record. -/
def decodeUrlset (d : RawDoc) : Except String Urlset :=
  match decodeUrls d.urls with
  | .error e => .error e
  | .ok us => .ok { sitemap := d.sitemapLocs.map Sitemap.mk, url := us }

/-- Lifecycle of one worker task (an index-child resolution goroutine or
one `primeUrl` goroutine) with respect to the shared `sem` gate: not yet
holding a slot, holding a slot (doing its work), finished (slot
released). -/
inductive TaskState where
  | idle
  | active
  | taskDone
deriving Repr, DecidableEq

/-- Number of tasks currently holding a gate slot — the occupancy of the
`sem` channel. -/
def activeCount (s : List TaskState) : Nat :=
  s.countP (fun t => t == .active)

/-- Transitions of the gate system with capacity `cap` (the `-c` throttle,
the buffer size of `sem`).  `acquire` is `sem <- true`: it can fire only
when the channel has room, i.e. fewer than `cap` slots are held, and only
for a task that has not yet started.  `release` is the unconditional
`<-sem` each task executes on exit, on success and failure paths alike
(`primeUrl` line 224, the child-resolution goroutine line 129). -/
inductive GateStep (cap : Nat) : List TaskState → List TaskState → Prop where
  | acquire (s : List TaskState) (i : Nat)
      (hidle : s.get? i = some .idle) (hroom : activeCount s < cap) :
      GateStep cap s (s.set i .active)
  | release (s : List TaskState) (i : Nat)
      (hact : s.get? i = some .active) :
      GateStep cap s (s.set i .taskDone)

/-- States of the gate system reachable in a run with `n` worker tasks,
starting from all tasks not yet dispatched. -/
inductive GateReach (cap n : Nat) : List TaskState → Prop where
  | init : GateReach cap n (List.replicate n .idle)
  | next {s s' : List TaskState} :
      GateReach cap n s → GateStep cap s s' → GateReach cap n s'

/-! Concrete fixtures used by the witness and counterexample theorems. -/

/-- The URL entries of the repository's own test sitemap. -/
def exUrls : List Url :=
  [{ loc := "http://localhost:8081/a", priority := mkRat 2 5 },
   { loc := "http://localhost:8081/b", priority := mkRat 3 5 },
   { loc := "http://localhost:8081/c", priority := 1 }]

/-- A URL entry to prime. -/
def u0 : Url := { loc := "http://e.com/a", priority := 0 }

/-- A second URL entry to prime. -/
def u1 : Url := { loc := "http://e.com/b", priority := mkRat 3 5 }

/-- Configuration with a local cache directory and no other options. -/
def cfgLocal : Config :=
  { throttle := 1, maxUncached := 0, localDir := "/var/www/cache",
    localSuffix := "index.html", userAgent := "ocp", verbose := false,
    audit := false, nowarn := false }

/-- Configuration with `-max 1` and no local cache directory. -/
def cfgMax : Config :=
  { throttle := 2, maxUncached := 1, localDir := "", localSuffix := "index.html",
    userAgent := "ocp", verbose := false, audit := false, nowarn := false }

/-- Configuration with audit mode enabled (and `nowarn` as `main` forces
it). -/
def cfgAudit : Config :=
  { throttle := 1, maxUncached := 0, localDir := "", localSuffix := "index.html",
    userAgent := "ocp", verbose := false, audit := true, nowarn := true }

/-- Environment in which the cached artifact for every URL exists. -/
def envHit : PrimeEnv :=
  { parsePath := fun _ => some "/a/", statExists := fun _ => true,
    http := fun _ => .response 200 "200 OK", elapsedMs := fun _ => 12 }

/-- Environment in which no cached artifact exists and every fetch
succeeds with 200. -/
def envMiss : PrimeEnv :=
  { parsePath := fun _ => some "/a/", statExists := fun _ => false,
    http := fun _ => .response 200 "200 OK", elapsedMs := fun _ => 12 }

/-- Environment in which every fetch fails with a transport error. -/
def envTransportFail : PrimeEnv :=
  { parsePath := fun _ => some "/a/", statExists := fun _ => false,
    http := fun _ => .transportErr "dial tcp: connection refused",
    elapsedMs := fun _ => 12 }

/-- Environment in which every fetch yields a 404 response. -/
def envNotFound : PrimeEnv :=
  { parsePath := fun _ => some "/a/", statExists := fun _ => false,
    http := fun _ => .response 404 "404 Not Found", elapsedMs := fun _ => 12 }

/-- A leaf Urlset with a single entry, used as a healthy child sitemap. -/
def childOk : Urlset :=
  { sitemap := [], url := [{ loc := "http://s.com/b", priority := mkRat 3 5 }] }

/-- Sitemap environment: the root is an index of two children, the first
child's fetch fails with a 404 and the second child decodes fine. -/
def envChildFail : SitemapEnv :=
  { fetchDecode := fun loc =>
      if loc = "http://s.com/sitemapindex.xml" then
        .ok { sitemap := [{ loc := "http://s.com/child1.xml" },
                          { loc := "http://s.com/child2.xml" }],
              url := [] }
      else if loc = "http://s.com/child1.xml" then .fetchErr "HTTP 404 Not Found"
      else if loc = "http://s.com/child2.xml" then .ok childOk
      else .fetchErr "unreachable" }

/-- Sitemap environment in which every fetch fails at the transport. -/
def envRootFetchFail : SitemapEnv :=
  { fetchDecode := fun _ => .fetchErr "connection refused" }

/-- Sitemap environment in which every document fetches but fails to
decode. -/
def envRootDecodeFail : SitemapEnv :=
  { fetchDecode := fun _ =>
      .decodeErr { sitemap := [], url := [] } "XML syntax error on line 1" }

/-- A leaf document whose only `<url>` carries an unparsable priority. -/
def badPriorityDoc : RawDoc :=
  { sitemapLocs := [], urls := [{ loc := "http://e.com/a", priority := some "abc" }] }

/-- A leaf document with one parsable priority and one absent priority. -/
def goodDoc : RawDoc :=
  { sitemapLocs := [],
    urls := [{ loc := "http://e.com/a", priority := some "0.4" },
             { loc := "http://e.com/b", priority := none }] }

/-! Helper lemmas. -/

/-- Zipping a list with its own image under `f` pairs each element with
its image. -/
theorem zip_map_self {α β : Type} (f : α → β) (l : List α) :
    l.zip (l.map f) = l.map fun a => (a, f a) := by
  induction l with
  | nil => rfl
  | cons a t ih => simp [ih]

/-! Claim theorems. -/

/-- C6: After the priority sort, for every pair of URL entries whose
declared priorities satisfy p1 > p2, the entry with priority p1 occurs no
later than the entry with priority p2, entries of equal priority may
appear in any relative order, and the sorted collection is a permutation
of the input collection.  (The equal-priority clause is a non-requirement;
the theorem establishes the permutation property and the ordering
property for unequal priorities.) -/
theorem priority_sort_descending_perm (l : List Url) :
    (sortUrls l).Perm l ∧
    ∀ (i j : Nat) (hi : i < (sortUrls l).length) (hj : j < (sortUrls l).length),
      ((sortUrls l).get ⟨j, hj⟩).priority < ((sortUrls l).get ⟨i, hi⟩).priority →
      i ≤ j := by
  constructor
  · exact List.perm_insertionSort sortRel l
  · intro i j hi hj hlt
    by_contra hij
    push_neg at hij
    have hs : List.Sorted sortRel (sortUrls l) :=
      List.sorted_insertionSort sortRel l
    have hrel := List.pairwise_iff_get.mp hs ⟨j, hj⟩ ⟨i, hi⟩ hij
    exact hrel hlt

/-- Witness for C6 on the repository's own test priorities: the sort of
`exUrls` is a permutation of it, obtained by instantiating the theorem at
positions 0 and 1 of the sorted list, whose priorities are 1 and 3/5. -/
theorem priority_sort_descending_perm_witness :
    (sortUrls exUrls).Perm exUrls ∧ (0 : Nat) ≤ 1 :=
  ⟨(priority_sort_descending_perm exUrls).1,
   (priority_sort_descending_perm exUrls).2 0 1 (by decide) (by decide) (by decide)⟩

/-- C10: In direct-URL mode (`--urls`), each command-line argument
produces exactly one UrlEntry: its location is the argument itself when
the argument begins with `http://` or `https://`, and otherwise is the
argument with `http://` prepended; every such entry has priority 0, and
neither sitemap resolution nor priority sorting is performed on the
resulting set.  (No resolution: the outcome is the same under every
sitemap environment; no sorting: the outcome is literally `urlSlice args`
in argument order.) -/
theorem direct_urls_mode (env env2 : SitemapEnv) (args : List String) :
    runMain env true args = .proceed (urlSlice args) ∧
    runMain env true args = runMain env2 true args ∧
    (urlSlice args).length = args.length ∧
    ∀ p ∈ args.zip (urlSlice args),
      p.2.loc = (if !hasHttpOrHttps p.1 then "http://" ++ p.1 else p.1) ∧
      p.2.priority = 0 := by
  refine ⟨rfl, rfl, by simp [urlSlice], ?_⟩
  intro p hp
  rw [urlSlice, zip_map_self] at hp
  obtain ⟨a, _, rfl⟩ := List.mem_map.mp hp
  exact ⟨rfl, rfl⟩

/-- Witness for C10: a bare host argument gets `http://` prepended and an
`https://` argument is kept verbatim, both at priority 0, with the
direct-mode outcome independent of the sitemap environment. -/
theorem direct_urls_mode_witness :
    runMain envRootFetchFail true ["foo.com/a", "https://b.com"] =
      .proceed (urlSlice ["foo.com/a", "https://b.com"]) ∧
    (("foo.com/a", ({ loc := "http://foo.com/a", priority := 0 } : Url)).2.loc =
      (if !hasHttpOrHttps "foo.com/a" then "http://" ++ "foo.com/a" else "foo.com/a") ∧
     ("foo.com/a", ({ loc := "http://foo.com/a", priority := 0 } : Url)).2.priority = 0) :=
  ⟨(direct_urls_mode envRootFetchFail envRootDecodeFail ["foo.com/a", "https://b.com"]).1,
   (direct_urls_mode envRootFetchFail envRootDecodeFail ["foo.com/a", "https://b.com"]).2.2.2
     ("foo.com/a", { loc := "http://foo.com/a", priority := 0 }) (by decide)⟩

/-- An uncached priming task issues exactly one GET whatever the fetch
outcome. -/
theorem primeUrl_requests_of_uncached (env : PrimeEnv) (cfg : Config) (u : Url)
    (hmiss : cacheHit env cfg u = false) :
    (primeUrl env cfg u).requests = 1 := by
  unfold primeUrl
  rw [hmiss]
  cases env.http u.loc <;> simp

/-- An uncached priming task under an active `-max` signals the counter
exactly once whatever the fetch outcome. -/
theorem primeUrl_signals_of_uncached (env : PrimeEnv) (cfg : Config) (u : Url)
    (hmiss : cacheHit env cfg u = false) (hmax : 0 < cfg.maxUncached) :
    (primeUrl env cfg u).signals = 1 := by
  unfold primeUrl
  rw [hmiss]
  cases env.http u.loc <;> simp [hmax]

/-- A cache-hit priming task does nothing observable. -/
theorem primeUrl_of_hit (env : PrimeEnv) (cfg : Config) (u : Url)
    (hhit : cacheHit env cfg u = true) :
    primeUrl env cfg u =
      { requests := 0, signals := 0, auditLines := [], warnings := 0 } := by
  unfold primeUrl
  rw [hhit]
  rfl

/-- C4: For every UrlEntry handled by a priming task: if a local cache
directory is configured and the file at `<cacheDir>/<url path>/<suffix>`
exists, the task performs no network request and never signals the
uncached counter; if the artifact does not exist, or the URL fails to
parse, or the filesystem check fails, or no cache directory is
configured, the task issues exactly one HTTP GET for that URL and the
check error is never propagated.  (A failing `os.Lstat` and an absent
artifact are one and the same case in the source — only `err == nil` is
inspected — and both they and a parse failure leave the task on the
fetch path, whose effect the second conjunct pins down for every such
environment; the Go error return is discarded by the `go primeUrl(u)`
caller, so the check error influences nothing.) -/
theorem prime_cache_check (env : PrimeEnv) (cfg : Config) (u : Url) :
    (∀ p, cfg.localDir ≠ "" → env.parsePath u.loc = some p →
      env.statExists (pathJoin cfg.localDir p cfg.localSuffix) = true →
      (primeUrl env cfg u).requests = 0 ∧ (primeUrl env cfg u).signals = 0) ∧
    ((cfg.localDir = "" ∨ env.parsePath u.loc = none ∨
       (∀ p, env.parsePath u.loc = some p →
         env.statExists (pathJoin cfg.localDir p cfg.localSuffix) = false)) →
      (primeUrl env cfg u).requests = 1) := by
  constructor
  · intro p hdir hparse hstat
    have hhit : cacheHit env cfg u = true := by
      simp [cacheHit, hparse, hstat, hdir]
    rw [primeUrl_of_hit env cfg u hhit]
    exact ⟨rfl, rfl⟩
  · intro hcase
    have hmiss : cacheHit env cfg u = false := by
      rcases hcase with hdir | hparse | hstat
      · simp [cacheHit, hdir]
      · simp [cacheHit, hparse]
      · cases hp : env.parsePath u.loc with
        | none => simp [cacheHit, hp]
        | some p => simp [cacheHit, hp, hstat p hp]
    exact primeUrl_requests_of_uncached env cfg u hmiss

/-- Witness for C4: with a cached artifact present the task issues zero
GETs and zero signals; with the artifact absent it issues exactly one
GET. -/
theorem prime_cache_check_witness :
    ((primeUrl envHit cfgLocal u0).requests = 0 ∧
     (primeUrl envHit cfgLocal u0).signals = 0) ∧
    (primeUrl envMiss cfgLocal u0).requests = 1 :=
  ⟨(prime_cache_check envHit cfgLocal u0).1 "/a/" (by decide) rfl rfl,
   (prime_cache_check envMiss cfgLocal u0).2 (Or.inr (Or.inr fun p _ => rfl))⟩

/-- C5: For every priming task that does not find a local cache hit, when
max-uncached is active (max > 0) the task signals the uncached counter
exactly once, both when its HTTP GET succeeds and when it returns a
transport error or a non-200 status.  (The environment quantifier covers
all three fetch outcomes.) -/
theorem uncached_fetch_signals_once (env : PrimeEnv) (cfg : Config) (u : Url)
    (hmiss : cacheHit env cfg u = false) (hmax : 0 < cfg.maxUncached) :
    (primeUrl env cfg u).signals = 1 :=
  primeUrl_signals_of_uncached env cfg u hmiss hmax

/-- Witness for C5 at all three fetch outcomes: a 200 response, a
transport error and a 404 response each signal exactly once. -/
theorem uncached_fetch_signals_once_witness :
    (primeUrl envMiss cfgMax u0).signals = 1 ∧
    (primeUrl envTransportFail cfgMax u0).signals = 1 ∧
    (primeUrl envNotFound cfgMax u0).signals = 1 :=
  ⟨uncached_fetch_signals_once envMiss cfgMax u0 (by decide) (by decide),
   uncached_fetch_signals_once envTransportFail cfgMax u0 (by decide) (by decide),
   uncached_fetch_signals_once envNotFound cfgMax u0 (by decide) (by decide)⟩

/-- Signal count of a batch in which no task finds a cache hit, for an
arbitrary starting accumulator. -/
theorem primeUrlset_signals_aux (env : PrimeEnv) (cfg : Config)
    (urls : List Url) (acc : PrimeEffect)
    (hmax : 0 < cfg.maxUncached)
    (hall : ∀ u ∈ urls, cacheHit env cfg u = false) :
    (urls.foldl (fun a u => a.add (primeUrl env cfg u)) acc).signals =
      acc.signals + urls.length := by
  induction urls generalizing acc with
  | nil => simp
  | cons u t ih =>
      have hu : cacheHit env cfg u = false := hall u (List.mem_cons_self u t)
      have ht : ∀ v ∈ t, cacheHit env cfg v = false :=
        fun v hv => hall v (List.mem_cons_of_mem u hv)
      rw [List.foldl_cons, ih _ ht]
      simp [PrimeEffect.add, primeUrl_signals_of_uncached env cfg u hu hmax]
      omega

/-- Signal count of a batch in which no task finds a cache hit: one signal
per URL. -/
theorem primeUrlset_signals_all_uncached (env : PrimeEnv) (cfg : Config)
    (urls : List Url) (hmax : 0 < cfg.maxUncached)
    (hall : ∀ u ∈ urls, cacheHit env cfg u = false) :
    (primeUrlset env cfg urls).signals = urls.length := by
  unfold primeUrlset
  rw [primeUrlset_signals_aux env cfg urls _ hmax hall]
  simp

/-- The stopper exits after consuming exactly `max` signals whenever at
least `max - count` more signals are forthcoming. -/
theorem maxStopperRun_exits (maxUncached : Nat) :
    ∀ (n count : Nat), count < maxUncached → maxUncached ≤ count + n →
      maxStopperRun maxUncached n count = some maxUncached := by
  intro n
  induction n with
  | zero => intro count hlt hle; omega
  | succ k ih =>
      intro count hlt hle
      unfold maxStopperRun
      by_cases h : count + 1 = maxUncached
      · simp [h]
      · have hlt' : count + 1 < maxUncached := by omega
        simp [h]
        exact ih (count + 1) hlt' (by omega)

/-- C3: When max-uncached is set to M ≥ 1 and the batch contains more
than M URLs with no local cache hits, the process terminates (as a
successful run, `os.Exit(0)`) as soon as exactly M uncached-fetch signals
have been counted, the trigger fires at most once (the exit ends the
counting loop at its first firing, which is how `maxStopperRun` returns),
the remaining in-flight tasks are not awaited (the signals beyond the
M-th — which exist, second conjunct — are never consumed), and this holds
for every concurrency ceiling (the `throttle` field of the configuration
is universally quantified and the unbuffered `one` channel serializes
signals regardless of it). -/
theorem maxstopper_stops_at_max (env : PrimeEnv) (cfg : Config)
    (urls : List Url) (hmax : 0 < cfg.maxUncached)
    (hall : ∀ u ∈ urls, cacheHit env cfg u = false)
    (hlen : cfg.maxUncached < urls.length) :
    maxStopperRun cfg.maxUncached ((primeUrlset env cfg urls).signals) 0 =
      some cfg.maxUncached ∧
    cfg.maxUncached < (primeUrlset env cfg urls).signals := by
  have hsig := primeUrlset_signals_all_uncached env cfg urls hmax hall
  rw [hsig]
  exact ⟨maxStopperRun_exits cfg.maxUncached urls.length 0 hmax (by omega), hlen⟩

/-- Witness for C3: with `-max 1` and two uncached URLs the stopper exits
successfully after exactly one signal, leaving one signal unconsumed. -/
theorem maxstopper_stops_at_max_witness :
    maxStopperRun cfgMax.maxUncached
        ((primeUrlset envMiss cfgMax [u0, u1]).signals) 0 =
      some cfgMax.maxUncached ∧
    cfgMax.maxUncached < (primeUrlset envMiss cfgMax [u0, u1]).signals :=
  maxstopper_stops_at_max envMiss cfgMax [u0, u1] (by decide) (by decide) (by decide)

/-- Fresh tasks hold no slots. -/
theorem activeCount_replicate_idle (n : Nat) :
    activeCount (List.replicate n .idle) = 0 := by
  simp [activeCount, List.countP_replicate]

/-- Starting a task that held no slot raises the occupancy by one. -/
theorem activeCount_set_acquire (s : List TaskState) (i : Nat)
    (h : s.get? i = some .idle) :
    activeCount (s.set i .active) = activeCount s + 1 := by
  induction s generalizing i with
  | nil => simp at h
  | cons a t ih =>
      cases i with
      | zero =>
          simp only [List.get?] at h
          injection h with h
          subst h
          simp [activeCount, List.countP_cons]
      | succ k =>
          simp only [List.get?] at h
          simp [activeCount, List.countP_cons]
          have := ih k h
          simp [activeCount] at this
          omega

/-- Finishing a task that held a slot lowers the occupancy by one. -/
theorem activeCount_set_release (s : List TaskState) (i : Nat)
    (h : s.get? i = some .active) :
    activeCount (s.set i .taskDone) + 1 = activeCount s := by
  induction s generalizing i with
  | nil => simp at h
  | cons a t ih =>
      cases i with
      | zero =>
          simp only [List.get?] at h
          injection h with h
          subst h
          simp [activeCount, List.countP_cons]
      | succ k =>
          simp only [List.get?] at h
          simp [activeCount, List.countP_cons]
          have := ih k h
          simp [activeCount] at this
          omega

/-- C9: At every point of a run, the number of concurrently active worker
tasks (index-child resolutions and priming fetches combined, sharing one
gate) never exceeds the configured throttle ceiling; every task acquires
one gate slot before doing any work and releases it exactly once on exit,
on both the success and the failure path.  (The acquire-before-work and
single-release structure is the transition relation itself — a task
enters `active` exactly once, through `acquire`, and leaves it exactly
once, through the unconditional `release` — and the theorem proves the
resulting occupancy invariant for every reachable state.) -/
theorem gate_occupancy_bounded (cap n : Nat) (s : List TaskState)
    (h : GateReach cap n s) : activeCount s ≤ cap := by
  induction h with
  | init => simp [activeCount_replicate_idle]
  | next _ hstep ih =>
      cases hstep with
      | acquire i hidle hroom =>
          rw [activeCount_set_acquire _ i hidle]
          omega
      | release i hact =>
          have := activeCount_set_release _ i hact
          omega

/-- Witness for C9: with throttle 1 and two tasks, the state after one
acquire is reachable and its occupancy is within the ceiling. -/
theorem gate_occupancy_bounded_witness :
    activeCount [TaskState.active, TaskState.idle] ≤ 1 :=
  gate_occupancy_bounded 1 2 [TaskState.active, TaskState.idle]
    (GateReach.next GateReach.init
      (GateStep.acquire (List.replicate 2 .idle) 0 rfl (by decide)))

/-- C1 (failing-input evaluation): resolving a sitemap index with follow
enabled, where the first child's fetch fails and the second child is
healthy, crashes the process with a nil-pointer dereference in version
2.7 — the merge loop dereferences the `nil` the failed child's goroutine
sent — instead of merging the surviving sibling's URLs and returning
without error.  The second conjunct shows version 2.5 of the same
function, whose merge loop guards against `nil`, realizes the claimed
behavior on the identical input: the failed child contributes zero URLs,
the sibling's URL survives, and no error is returned. -/
theorem child_failure_crashes_resolution :
    getUrlsFromSitemap envChildFail "http://s.com/sitemapindex.xml" true =
      .crash nilDeref ∧
    getUrlsFromSitemapV25 envChildFail "http://s.com/sitemapindex.xml" true =
      (some { sitemap := [{ loc := "http://s.com/child1.xml" },
                          { loc := "http://s.com/child2.xml" }],
              url := [{ loc := "http://s.com/b", priority := mkRat 3 5 }] },
       none) := by
  exact ⟨rfl, rfl⟩

/-- C2 (failing-input evaluation): when the root sitemap's fetch fails,
`getUrlsFromSitemap` returns a nil urlset, and `main` (version 2.7) calls
`sort.Sort(urlset)` before its error check, crashing on the nil
dereference inside `Len` — the error is never printed.  The second
conjunct shows the decode-failure half of the claim does hold: a root
decode error leaves a non-nil (partially decoded) urlset, so the error is
printed and no priming is attempted. -/
theorem root_fetch_failure_crashes_main :
    runMainSitemap envRootFetchFail "http://down.example/sitemap.xml" =
      .crash nilDeref ∧
    runMainSitemap envRootDecodeFail "http://down.example/sitemap.xml" =
      .errorPrinted "XML syntax error on line 1" := by
  exact ⟨rfl, rfl⟩

/-- C7 counterexample: decoding a leaf document whose single `<url>`
carries the unparsable priority text `abc` does not yield an entry with
priority 0 — the decode fails with the `strconv.ParseFloat` error, which
`getUrlsFromSitemap` then treats as a hard failure for the location. -/
theorem unparsable_priority_fails_decode :
    decodeUrlset badPriorityDoc = .error (parseFloatErr "abc") := rfl

/-- Decoding a `<url>` list succeeds elementwise when every priority
field is absent or parsable. -/
theorem decodeUrls_ok_of_parsable (rs : List RawUrl)
    (h : ∀ r ∈ rs, (decodePriority r.priority).isOk = true) :
    ∃ us, decodeUrls rs = .ok us ∧ us.length = rs.length ∧
      ∀ p ∈ rs.zip us,
        p.2.loc = p.1.loc ∧ decodePriority p.1.priority = .ok p.2.priority := by
  induction rs with
  | nil => exact ⟨[], rfl, rfl, by simp⟩
  | cons r rest ih =>
      have hr := h r (List.mem_cons_self r rest)
      obtain ⟨q, hq⟩ : ∃ q, decodePriority r.priority = .ok q := by
        cases hp : decodePriority r.priority with
        | ok q => exact ⟨q, rfl⟩
        | error e => rw [hp] at hr; simp [Except.isOk, Except.toBool] at hr
      obtain ⟨us, hus, hlen, hzip⟩ :=
        ih fun r' hr' => h r' (List.mem_cons_of_mem r hr')
      refine ⟨{ loc := r.loc, priority := q } :: us, ?_, by simp [hlen], ?_⟩
      · unfold decodeUrls
        rw [hq, hus]
      · intro p hp
        rw [List.zip_cons_cons] at hp
        rcases List.mem_cons.mp hp with heq | hmem
        · subst heq
          exact ⟨rfl, hq⟩
        · exact hzip p hmem

/-- C7 (as amended): decoding a leaf sitemap document with N `<url>`
elements, each of whose `<priority>` fields is absent or parsable, yields
a UrlSet with exactly N UrlEntry values whose location is the document's
`<loc>` text verbatim and whose priority is the parsed `<priority>` value
(0 when the element is absent); a `<url>` element with an unparsable
`<priority>` instead fails the whole decode. -/
theorem decode_ok_of_parsable (d : RawDoc)
    (h : ∀ r ∈ d.urls, (decodePriority r.priority).isOk = true) :
    ∃ u, decodeUrlset d = .ok u ∧ u.url.length = d.urls.length ∧
      ∀ p ∈ d.urls.zip u.url,
        p.2.loc = p.1.loc ∧ decodePriority p.1.priority = .ok p.2.priority := by
  obtain ⟨us, hus, hlen, hzip⟩ := decodeUrls_ok_of_parsable d.urls h
  refine ⟨{ sitemap := d.sitemapLocs.map Sitemap.mk, url := us }, ?_, hlen, hzip⟩
  unfold decodeUrlset
  rw [hus]

/-- Witness for C7: a document with priorities `0.4` and absent decodes
to two entries with the verbatim locations, priorities 2/5 and 0. -/
theorem decode_ok_of_parsable_witness :
    (∀ r ∈ goodDoc.urls, (decodePriority r.priority).isOk = true) ∧
    ∃ u, decodeUrlset goodDoc = .ok u ∧ u.url.length = goodDoc.urls.length ∧
      ∀ p ∈ goodDoc.urls.zip u.url,
        p.2.loc = p.1.loc ∧ decodePriority p.1.priority = .ok p.2.priority :=
  ⟨by decide, decode_ok_of_parsable goodDoc (by decide)⟩

/-- C8 counterexample: in audit mode, a priming attempt that fails with a
transport error issues a network request but prints no audit line — the
`fmt.Printf` sits in the `err == nil` branch — so not every attempt
reports, contrary to the claim. -/
theorem transport_error_prints_no_audit_line :
    (primeUrl envTransportFail cfgAudit u0).requests = 1 ∧
    (primeUrl envTransportFail cfgAudit u0).auditLines = [] := by
  exact ⟨rfl, rfl⟩

/-- C8 (as amended): when audit mode is enabled, every network priming
attempt that obtains an HTTP response prints one tab-separated report
line containing the status code, the elapsed time in milliseconds and
the URL, whatever the status code; an attempt that fails with a transport
error prints no report line; and enabling audit mode forces verbose
logging off and warning output off. -/
theorem audit_reports_responses (env : PrimeEnv) (cfg : Config) (u : Url)
    (haud : cfg.audit = true) (hmiss : cacheHit env cfg u = false) :
    (∀ code status, env.http u.loc = .response code status →
      (primeUrl env cfg u).auditLines =
        [{ statusCode := code, elapsedMs := env.elapsedMs u.loc, loc := u.loc }]) ∧
    (∀ m, env.http u.loc = .transportErr m →
      (primeUrl env cfg u).auditLines = []) ∧
    (applyAudit cfg).verbose = false ∧ (applyAudit cfg).nowarn = true := by
  refine ⟨?_, ?_, ?_, ?_⟩
  · intro code status hresp
    unfold primeUrl
    rw [hmiss, hresp]
    simp [haud]
  · intro m herr
    unfold primeUrl
    rw [hmiss, herr]
    simp
  · simp [applyAudit, haud]
  · simp [applyAudit, haud]

/-- Witness for C8: in audit mode a 200 response produces exactly the
status/elapsed/URL line, and the adjusted configuration has verbose off
and warnings suppressed. -/
theorem audit_reports_responses_witness :
    (primeUrl envMiss cfgAudit u0).auditLines =
      [{ statusCode := 200, elapsedMs := envMiss.elapsedMs u0.loc, loc := u0.loc }] ∧
    (applyAudit cfgAudit).verbose = false ∧ (applyAudit cfgAudit).nowarn = true :=
  ⟨(audit_reports_responses envMiss cfgAudit u0 rfl (by decide)).1 200 "200 OK" rfl,
   (audit_reports_responses envMiss cfgAudit u0 rfl (by decide)).2.2.1,
   (audit_reports_responses envMiss cfgAudit u0 rfl (by decide)).2.2.2⟩

end Ocp
